import Mathlib

/-!
# sigil: `pkg/utils` instance resolver

A shallow embedding of `GetInstance` and `getFirstInstance` from
`pkg/utils/utils.go`, followed by theorems about them.

Conventions of the embedding:

* Go strings are modelled by `String`.  The only string operations the code
  performs are equality, concatenation and `strings.Split` on the one-byte
  separators `,` and `:`.
* A Go result pair `(*ec2.Instance, error)` is `Outcome.ret instance err` with
  `none` for `nil`; a run-time panic is `Outcome.panic`.
* The calls that leave the function (the logrus entry and the call of
  `DescribeInstancesPages`) are recorded, in order, in `Run.effects`.
* The instance record `ec2.Instance` is opaque to the code and is the type
  parameter `Inst`; errors that come from the SDK are the type parameter `E`.
-/

namespace Sigil

/-! ## Strings -/

/-- `strings.Split` on a list of characters, for a one-character separator:
the pieces between the occurrences of `sep`, always at least one piece. -/
def splitChars (sep : Char) : List Char → List (List Char)
  | [] => [[]]
  | c :: cs =>
    if c = sep then [] :: splitChars sep cs
    else
      match splitChars sep cs with
      | [] => [[c]]
      | piece :: pieces => (c :: piece) :: pieces

/-- `strings.Split(s, sep)` for a separator of one character. -/
def stringsSplit (s : String) (sep : Char) : List String :=
  (splitChars sep s.data).map String.mk

/-- `msg` has `t` as a contiguous substring. -/
def Contains (msg t : String) : Prop := t.data <:+: msg.data

instance (msg t : String) : Decidable (Contains msg t) := by
  unfold Contains; infer_instance

/-! ## Data model -/

/-- `ec2.Filter`: a name and its accepted values. -/
structure Filter where
  Name : String
  Values : List String
  deriving DecidableEq, Repr

/-- `ec2.DescribeInstancesInput`; only `Filters` is ever set. -/
structure DescribeInstancesInput where
  Filters : List Filter
  deriving DecidableEq, Repr

/-- `ec2.Reservation`; only `Instances` is read. The SDK fills the slice with
pointers to decoded records, none of them `nil`. -/
structure Reservation (Inst : Type) where
  Instances : List Inst
  deriving DecidableEq, Repr

/-- `ec2.DescribeInstancesOutput`, one page of the answer; only
`Reservations` is read, a slice of pointers none of which is `nil`. -/
structure DescribeInstancesOutput (Inst : Type) where
  Reservations : List (Reservation Inst)
  deriving DecidableEq, Repr

/-- A Go `error` value: one made by `fmt.Errorf` (known by its message), or
one handed over by the SDK. -/
inductive GoError (E : Type) where
  | errorf (msg : String)
  | upstream (e : E)
  deriving DecidableEq, Repr

/-- What a call leaves behind outside the function. -/
inductive Effect where
  /-- `log.WithFields(fields).Error(msg)` -/
  | logError (fields : List (String × String)) (msg : String)
  /-- A call of `DescribeInstancesPages(input, ..)` during which
  `pageRequests` page requests were sent to the service. -/
  | describeInstancesPages (input : DescribeInstancesInput) (pageRequests : Nat)
  deriving DecidableEq, Repr

/-- The run-time panic `index out of range [index] with length length`. -/
structure IndexOutOfRange where
  index : Nat
  length : Nat
  deriving DecidableEq, Repr

/-- How a call of `GetInstance` ends. -/
inductive Outcome (Inst E : Type) where
  | ret (inst : Option Inst) (err : Option (GoError E))
  | panic (p : IndexOutOfRange)
  deriving DecidableEq, Repr

/-- A call of `GetInstance`: its effects in order, and how it ends. -/
structure Run (Inst E : Type) where
  effects : List Effect
  outcome : Outcome Inst E
  deriving DecidableEq, Repr

/-- The inputs of the list queries among the effects, in order. -/
def queries : List Effect → List DescribeInstancesInput
  | [] => []
  | .logError _ _ :: rest => queries rest
  | .describeInstancesPages input _ :: rest => input :: queries rest

/-- The page callback handed to `DescribeInstancesPages`: it receives a page
and the `lastPage` flag, may update the captured variable `target`, and
answers whether to continue. -/
abbrev PageFn (Inst : Type) :=
  DescribeInstancesOutput Inst → Bool → Option Inst → Option Inst × Bool

/-- What `DescribeInstancesPages` leaves: the captured variable after the
callbacks ran, the error it returns, and the number of page requests sent. -/
structure PagesResult (Inst E : Type) where
  target : Option Inst
  err : Option (GoError E)
  pageRequests : Nat
  deriving DecidableEq, Repr

/-- A `*session.Session`, known by the behaviour of the client
`ec2.New(sess)`: any function of the input, the callback and the initial value
of the captured variable. -/
structure Session (Inst E : Type) where
  DescribeInstancesPages :
    DescribeInstancesInput → PageFn Inst → Option Inst → PagesResult Inst E

/-! ## The SDK paginator -/

/-- The pagination loop of the SDK over the answers of the service to the
successive page requests: each page is handed to `fn` with `lastPage` set on
the final one; the loop ends when `fn` answers `false`, when a request fails
(its error is returned), or when the pages are exhausted. `n` counts the
requests sent so far. -/
def paginate {Inst E : Type} (fn : PageFn Inst) :
    List (Except (GoError E) (DescribeInstancesOutput Inst)) → Option Inst → Nat →
      PagesResult Inst E
  | [], target, n => ⟨target, none, n⟩
  | .error e :: _, target, n => ⟨target, some e, n + 1⟩
  | .ok page :: rest, target, n =>
    match fn page rest.isEmpty target with
    | (target', true) => paginate fn rest target' (n + 1)
    | (target', false) => ⟨target', none, n + 1⟩

/-- The session whose service answers the list query `input` with the page
request results `server input`. -/
def sdkSession {Inst E : Type}
    (server : DescribeInstancesInput →
      List (Except (GoError E) (DescribeInstancesOutput Inst))) : Session Inst E :=
  ⟨fun input fn target => paginate fn (server input) target 0⟩

/-! ## `getFirstInstance` -/

/-- The two nested `for` loops of the page callback: the first instance of
the first reservation that has one. -/
def scanReservations {Inst : Type} : List (Reservation Inst) → Option Inst
  | [] => none
  | ⟨[]⟩ :: rest => scanReservations rest
  | ⟨inst :: _⟩ :: _ => some inst

/-- The closure passed by `getFirstInstance`: on the first instance found it
stores it in `target` and answers `false`; otherwise it answers `!lastPage`. -/
def pageCallback {Inst : Type} : PageFn Inst :=
  fun page lastPage target =>
    match scanReservations page.Reservations with
    | some inst => (some inst, false)
    | none => (target, !lastPage)

/-- `getFirstInstance(sess, input)`: the effect of the call and the returned
pair `(instance, err)`. -/
def getFirstInstance {Inst E : Type} (sess : Session Inst E)
    (input : DescribeInstancesInput) :
    Effect × Option Inst × Option (GoError E) :=
  let r := sess.DescribeInstancesPages input pageCallback none
  match r.err with
  | some err => (.describeInstancesPages input r.pageRequests, none, some err)
  | none => (.describeInstancesPages input r.pageRequests, r.target, none)

/-! ## `GetInstance` -/

/-- The tail shared by the four cases of the `switch`:
`if err != nil { return nil, err }`,
`if instance == nil { return nil, fmt.Errorf(notFound) }`,
`return instance, err`. -/
def finish {Inst E : Type} (notFound : String) :
    Effect × Option Inst × Option (GoError E) → Run Inst E
  | (fx, _, some err) => ⟨[fx], .ret none (some err)⟩
  | (fx, none, none) => ⟨[fx], .ret none (some (.errorf notFound))⟩
  | (fx, some inst, none) => ⟨[fx], .ret (some inst) none⟩

/-- The filter `instance-state-name = [running]`. -/
def runningFilter : Filter := ⟨"instance-state-name", ["running"]⟩

/-- The loop `for _, str := range s` of the `tags` case: each segment is
split on `:` and the filter `tag:<tags[0]> = [tags[1]]` is appended; indexing
past the end of `tags` panics. -/
def tagLoop (filters : List Filter) : List String → Except IndexOutOfRange (List Filter)
  | [] => .ok filters
  | str :: rest =>
    let tags := stringsSplit str ':'
    match tags[0]?, tags[1]? with
    | none, _ => .error ⟨0, tags.length⟩
    | some _, none => .error ⟨1, tags.length⟩
    | some tag0, some tag1 => tagLoop (filters ++ [⟨"tag:" ++ tag0, [tag1]⟩]) rest

/-- `GetInstance(sess, targetType, target)`. -/
def GetInstance {Inst E : Type} (sess : Session Inst E) (targetType target : String) :
    Run Inst E :=
  if target = "" then
    ⟨[.logError [("target", target)] "Specify the target"],
      .ret none (some (.errorf "Specify the target"))⟩
  else if targetType = "instance-id" then
    finish ("no instance with an instance id: " ++ target)
      (getFirstInstance sess ⟨[⟨"instance-id", [target]⟩]⟩)
  else if targetType = "private-dns" then
    finish ("no instance with a private dns name: " ++ target)
      (getFirstInstance sess ⟨[⟨"private-dns-name", [target]⟩, runningFilter]⟩)
  else if targetType = "name-tag" then
    let filters : List Filter := []
    let filters := filters ++ [⟨"tag:Name", [target]⟩]
    let filters := filters ++ [runningFilter]
    finish ("no instance with name tag: " ++ target) (getFirstInstance sess ⟨filters⟩)
  else if targetType = "tags" then
    let filters : List Filter := []
    let filters := filters ++ [runningFilter]
    match tagLoop filters (stringsSplit target ',') with
    | .error p => ⟨[], .panic p⟩
    | .ok filters =>
      finish ("no instance with name tag: " ++ target) (getFirstInstance sess ⟨filters⟩)
  else
    ⟨[], .ret none (some (.errorf ("Unsupported target type: " ++ target)))⟩

/-! ## Vocabulary of the statements -/

/-- The four target types of the `switch`. -/
def supportedTypes : List String := ["instance-id", "private-dns", "name-tag", "tags"]

/-- The text `k1:v1,k2:v2,...,kn:vn` of a list of pairs. -/
def renderTags : List (String × String) → String
  | [] => ""
  | [kv] => kv.1 ++ ":" ++ kv.2
  | kv :: rest => kv.1 ++ ":" ++ kv.2 ++ "," ++ renderTags rest

/-- The part of `v` before its first colon; all of `v` when it has none. -/
def beforeColon (v : String) : String := ⟨v.data.takeWhile (· ≠ ':')⟩

/-- The segment `k:v` of a pair. -/
def segment (kv : String × String) : String := kv.1 ++ ":" ++ kv.2

/-- The tag filter of a pair: `tag:<k> = [v up to its first colon]`. -/
def tagFilter (kv : String × String) : Filter := ⟨"tag:" ++ kv.1, [beforeColon kv.2]⟩

/-- A `tags` target is well formed when each of its comma-separated segments
has a colon. -/
def WellFormedTags (target : String) : Prop :=
  ∀ seg ∈ stringsSplit target ',', ':' ∈ seg.data

instance (target : String) : Decidable (WellFormedTags target) := by
  unfold WellFormedTags; infer_instance

/-- A page has an instance in one of its reservations. -/
def hasInstance {Inst : Type} (page : DescribeInstancesOutput Inst) : Bool :=
  page.Reservations.any fun r => !r.Instances.isEmpty

/-- The instances of the pages in page, reservation, instance order. -/
def flattenPages {Inst : Type} (pages : List (DescribeInstancesOutput Inst)) : List Inst :=
  (pages.map fun page => (page.Reservations.map fun r => r.Instances).flatten).flatten

/-- A session whose service answers every list query with the same pages. -/
def pagesSession {Inst E : Type} (pages : List (DescribeInstancesOutput Inst)) :
    Session Inst E :=
  sdkSession fun _ => pages.map .ok

/-- A session whose paginator hands one page holding the instance `i` to the
callback and then returns the error `e`. -/
def failAfterPage {Inst E : Type} (i : Inst) (e : GoError E) : Session Inst E :=
  ⟨fun _ fn target => ⟨(fn ⟨[⟨[i]⟩]⟩ false target).1, some e, 2⟩⟩

/-! ## Lemmas on splitting -/

theorem splitChars_ne_nil (sep : Char) (s : List Char) : splitChars sep s ≠ [] := by
  induction s with
  | nil => simp [splitChars]
  | cons c cs ih =>
    unfold splitChars
    split
    · simp
    · split <;> simp

theorem splitChars_of_not_mem (sep : Char) (s : List Char) (h : sep ∉ s) :
    splitChars sep s = [s] := by
  induction s with
  | nil => rfl
  | cons c cs ih =>
    have hc : c ≠ sep := fun hc => h (by simp [hc])
    have hcs : sep ∉ cs := fun hm => h (List.mem_cons_of_mem _ hm)
    simp [splitChars, hc, ih hcs]

theorem splitChars_append_sep (sep : Char) (a b : List Char) (h : sep ∉ a) :
    splitChars sep (a ++ sep :: b) = a :: splitChars sep b := by
  induction a with
  | nil => simp [splitChars]
  | cons c cs ih =>
    have hc : c ≠ sep := fun hc => h (by simp [hc])
    have hcs : sep ∉ cs := fun hm => h (List.mem_cons_of_mem _ hm)
    simp [splitChars, hc, ih hcs]

theorem splitChars_head (sep : Char) (s : List Char) :
    (splitChars sep s)[0]? = some (s.takeWhile (· ≠ sep)) := by
  induction s with
  | nil => rfl
  | cons c cs ih =>
    unfold splitChars
    by_cases hc : c = sep
    · simp [hc]
    · simp only [hc, if_false]
      cases hs : splitChars sep cs with
      | nil => exact absurd hs (splitChars_ne_nil sep cs)
      | cons piece pieces =>
        rw [hs] at ih
        simp at ih
        simp [List.takeWhile, hc, ih]

theorem two_le_length_splitChars (sep : Char) (s : List Char) (h : sep ∈ s) :
    2 ≤ (splitChars sep s).length := by
  induction s with
  | nil => simp at h
  | cons c cs ih =>
    unfold splitChars
    by_cases hc : c = sep
    · have := splitChars_ne_nil sep cs
      simp only [hc, if_true, List.length_cons]
      have : 0 < (splitChars sep cs).length := List.length_pos.mpr this
      omega
    · simp only [hc, if_false]
      have hm : sep ∈ cs := by
        rcases List.mem_cons.mp h with h1 | h1
        · exact absurd h1.symm hc
        · exact h1
      have := ih hm
      cases hs : splitChars sep cs with
      | nil => rw [hs] at this; simp at this
      | cons piece pieces => rw [hs] at this; simpa using this

theorem stringsSplit_segment (kv : String × String) (hk : ':' ∉ kv.1.data) :
    stringsSplit (segment kv) ':' = kv.1 :: stringsSplit kv.2 ':' := by
  obtain ⟨⟨k⟩, ⟨v⟩⟩ := kv
  simp only [stringsSplit, segment, String.data_append]
  rw [List.append_assoc, List.singleton_append, splitChars_append_sep _ _ _ hk]
  simp

theorem stringsSplit_head (v : String) :
    (stringsSplit v ':')[0]? = some (beforeColon v) := by
  simp [stringsSplit, beforeColon, splitChars_head]

theorem tagLoop_segments (kvs : List (String × String)) (filters : List Filter)
    (hk : ∀ kv ∈ kvs, ':' ∉ kv.1.data) :
    tagLoop filters (kvs.map segment) = .ok (filters ++ kvs.map tagFilter) := by
  induction kvs generalizing filters with
  | nil => simp [tagLoop]
  | cons kv rest ih =>
    have h1 := stringsSplit_segment kv (hk kv (List.mem_cons_self _ _))
    have h2 := stringsSplit_head kv.2
    simp only [List.map_cons, tagLoop, h1, List.getElem?_cons_zero, List.getElem?_cons_succ, h2]
    rw [ih _ (fun kv' hm => hk kv' (List.mem_cons_of_mem _ hm))]
    simp [tagFilter]

theorem renderTags_cons_cons (kv kv' : String × String) (rest : List (String × String)) :
    renderTags (kv :: kv' :: rest) = segment kv ++ "," ++ renderTags (kv' :: rest) := rfl

theorem segment_no_comma (kv : String × String)
    (h : ',' ∉ kv.1.data ∧ ',' ∉ kv.2.data) : ',' ∉ (segment kv).data := by
  have : (":" : String).data = [':'] := rfl
  simp [segment, String.data_append, this, h.1, h.2]

theorem stringsSplit_renderTags (kvs : List (String × String)) (hne : kvs ≠ [])
    (hc : ∀ kv ∈ kvs, ',' ∉ kv.1.data ∧ ',' ∉ kv.2.data) :
    stringsSplit (renderTags kvs) ',' = kvs.map segment := by
  induction kvs with
  | nil => exact absurd rfl hne
  | cons kv rest ih =>
    have hseg := segment_no_comma kv (hc kv (List.mem_cons_self _ _))
    cases rest with
    | nil =>
      show stringsSplit (segment kv) ',' = [segment kv]
      simp [stringsSplit, splitChars_of_not_mem _ _ hseg]
    | cons kv' rest' =>
      have ih' := ih (by simp) (fun x hm => hc x (List.mem_cons_of_mem _ hm))
      have hcomma : (",": String).data = [','] := rfl
      rw [renderTags_cons_cons]
      simp only [stringsSplit, String.data_append, hcomma, List.append_assoc,
        List.singleton_append, splitChars_append_sep _ _ _ hseg, List.map_cons]
      simp only [stringsSplit] at ih'
      rw [ih']
      simp

theorem renderTags_ne_empty (kvs : List (String × String)) (hne : kvs ≠ []) :
    renderTags kvs ≠ "" := by
  have hcolon : (":" : String).data = [':'] := rfl
  intro h
  have hd := congrArg String.data h
  cases kvs with
  | nil => exact hne rfl
  | cons kv rest =>
    cases rest with
    | nil => simp [renderTags, String.data_append, hcolon] at hd
    | cons kv' rest' =>
      simp [renderTags_cons_cons, segment, String.data_append, hcolon] at hd

/-- The list query of the `tags` case on a target `k1:v1,...,kn:vn`. -/
theorem GetInstance_tags {Inst E : Type} (sess : Session Inst E)
    (kvs : List (String × String)) (hne : kvs ≠ [])
    (hk : ∀ kv ∈ kvs, ':' ∉ kv.1.data ∧ ',' ∉ kv.1.data ∧ ',' ∉ kv.2.data) :
    GetInstance sess "tags" (renderTags kvs)
      = finish ("no instance with name tag: " ++ renderTags kvs)
          (getFirstInstance sess ⟨runningFilter :: kvs.map tagFilter⟩) := by
  have h1 := stringsSplit_renderTags kvs hne (fun kv hm => (hk kv hm).2)
  have h2 := tagLoop_segments kvs [runningFilter] (fun kv hm => (hk kv hm).1)
  have h3 := renderTags_ne_empty kvs hne
  unfold GetInstance
  rw [if_neg h3, if_neg (by decide), if_neg (by decide), if_neg (by decide), if_pos rfl]
  simp only [List.nil_append, h1, h2, List.singleton_append]

theorem queries_finish {Inst E : Type} (sess : Session Inst E) (notFound : String)
    (input : DescribeInstancesInput) :
    queries (finish notFound (getFirstInstance sess input)).effects = [input] := by
  unfold getFirstInstance
  generalize sess.DescribeInstancesPages input pageCallback none = r
  obtain ⟨target, err, n⟩ := r
  cases err with
  | some e => simp [finish, queries]
  | none => cases target <;> simp [finish, queries]

theorem beforeColon_of_no_colon (v : String) (h : ':' ∉ v.data) : beforeColon v = v := by
  obtain ⟨v⟩ := v
  show String.mk _ = String.mk _
  congr 1
  apply List.takeWhile_eq_self_iff.mpr
  intro c hc
  simp only [ne_eq, decide_eq_true_eq]
  rintro rfl
  exact h hc

theorem tagLoop_ok_of_colons (segs : List String) (filters : List Filter)
    (h : ∀ seg ∈ segs, ':' ∈ seg.data) : ∃ fs, tagLoop filters segs = .ok fs := by
  induction segs generalizing filters with
  | nil => exact ⟨filters, rfl⟩
  | cons seg rest ih =>
    have hlen : 2 ≤ (stringsSplit seg ':').length := by
      simpa [stringsSplit] using
        two_le_length_splitChars ':' seg.data (h seg (List.mem_cons_self _ _))
    unfold tagLoop
    match hs : stringsSplit seg ':' with
    | [] => rw [hs] at hlen; simp at hlen
    | [_] => rw [hs] at hlen; simp at hlen
    | tag0 :: tag1 :: more =>
      simp only [List.getElem?_cons_zero, List.getElem?_cons_succ]
      exact ih _ (fun x hm => h x (List.mem_cons_of_mem _ hm))

theorem tagLoop_panics_of_no_colon (segs : List String) (filters : List Filter)
    (h : ∃ seg ∈ segs, ':' ∉ seg.data) : tagLoop filters segs = .error ⟨1, 1⟩ := by
  induction segs generalizing filters with
  | nil => simp at h
  | cons seg rest ih =>
    unfold tagLoop
    by_cases hc : ':' ∈ seg.data
    · have hlen : 2 ≤ (stringsSplit seg ':').length := by
        simpa [stringsSplit] using two_le_length_splitChars ':' seg.data hc
      have hrest : ∃ x ∈ rest, ':' ∉ x.data := by
        obtain ⟨x, hm, hx⟩ := h
        rcases List.mem_cons.mp hm with rfl | hm
        · exact absurd hc hx
        · exact ⟨x, hm, hx⟩
      match hs : stringsSplit seg ':' with
      | [] => rw [hs] at hlen; simp at hlen
      | [_] => rw [hs] at hlen; simp at hlen
      | tag0 :: tag1 :: more =>
        simp only [List.getElem?_cons_zero, List.getElem?_cons_succ]
        exact ih _ hrest
    · have hs : stringsSplit seg ':' = [seg] := by
        simp [stringsSplit, splitChars_of_not_mem _ _ hc]
      simp [hs]

/-! ## Lemmas on `getFirstInstance` -/

theorem scanReservations_eq {Inst : Type} (rs : List (Reservation Inst)) :
    scanReservations rs = ((rs.map fun r => r.Instances).flatten).head? := by
  induction rs with
  | nil => rfl
  | cons r rest ih =>
    obtain ⟨is⟩ := r
    cases is with
    | nil => simpa [scanReservations] using ih
    | cons i is => simp [scanReservations]

theorem hasInstance_eq {Inst : Type} (page : DescribeInstancesOutput Inst) :
    hasInstance page = (scanReservations page.Reservations).isSome := by
  obtain ⟨rs⟩ := page
  simp only [hasInstance]
  induction rs with
  | nil => rfl
  | cons r rest ih =>
    obtain ⟨is⟩ := r
    cases is with
    | nil => simpa [scanReservations] using ih
    | cons i is => simp [scanReservations]

theorem paginate_pages {Inst E : Type} (pages : List (DescribeInstancesOutput Inst))
    (target : Option Inst) (n : Nat) :
    (paginate pageCallback (pages.map .ok) target n : PagesResult Inst E)
      = ⟨match (flattenPages pages).head? with
          | some i => some i
          | none => target,
         none, n + min (pages.findIdx hasInstance + 1) pages.length⟩ := by
  induction pages generalizing target n with
  | nil => simp [paginate, flattenPages]
  | cons page rest ih =>
    have hscan := scanReservations_eq page.Reservations
    have hhas := hasInstance_eq page
    cases hs : scanReservations page.Reservations with
    | some i =>
      rw [hs] at hscan hhas
      have hhead : (flattenPages (page :: rest)).head? = some i := by
        simp only [flattenPages, List.map_cons, List.flatten_cons]
        rw [List.head?_append, ← hscan]; rfl
      simp only [Option.isSome_some] at hhas
      simp [paginate, pageCallback, hs, hhead, List.findIdx_cons, hhas]
    | none =>
      rw [hs] at hscan hhas
      have hnil : (page.Reservations.map fun r => r.Instances).flatten = [] :=
        List.head?_eq_none_iff.mp hscan.symm
      have hhead : flattenPages (page :: rest) = flattenPages rest := by
        simp only [flattenPages, List.map_cons, List.flatten_cons, hnil, List.nil_append]
      simp only [Option.isSome_none] at hhas
      cases rest with
      | nil =>
        simp [paginate, pageCallback, hs, flattenPages, hnil, List.findIdx_cons, hhas]
      | cons page' rest' =>
        have := ih target (n + 1)
        rw [List.map_cons, paginate]
        simp only [pageCallback, hs, List.map_cons, List.isEmpty_cons, Bool.not_false]
        simp only [List.map_cons] at this
        rw [this, hhead]
        simp only [List.findIdx_cons (p := hasInstance) (b := page), hhas, List.length_cons]
        congr 1
        simp only [cond_false]
        omega

theorem getFirstInstance_pagesSession {Inst E : Type}
    (server : DescribeInstancesInput → List (DescribeInstancesOutput Inst))
    (input : DescribeInstancesInput) :
    getFirstInstance (sdkSession (E := E) fun q => (server q).map .ok) input
      = (.describeInstancesPages input
            (min ((server input).findIdx hasInstance + 1) (server input).length),
          (flattenPages (server input)).head?, none) := by
  simp only [getFirstInstance, sdkSession, paginate_pages, Nat.zero_add]
  cases (flattenPages (server input)).head? <;> rfl

/-! ## Lemmas on `GetInstance` -/

theorem finish_of_err {Inst E : Type} (sess : Session Inst E) (notFound : String)
    (input : DescribeInstancesInput) (e : GoError E)
    (h : (sess.DescribeInstancesPages input pageCallback none).err = some e) :
    (finish notFound (getFirstInstance sess input)).outcome = .ret none (some e) := by
  simp [getFirstInstance, h, finish]

theorem finish_cases {Inst E : Type} (sess : Session Inst E) (notFound : String)
    (input : DescribeInstancesInput) :
    (∃ i, (finish notFound (getFirstInstance sess input)).outcome = .ret (some i) none) ∨
    (∃ e, (finish notFound (getFirstInstance sess input)).outcome = .ret none (some e)) := by
  unfold getFirstInstance
  generalize sess.DescribeInstancesPages input pageCallback none = r
  obtain ⟨target, err, n⟩ := r
  cases err with
  | some e => exact Or.inr ⟨e, rfl⟩
  | none =>
    cases target with
    | none => exact Or.inr ⟨_, rfl⟩
    | some i => exact Or.inl ⟨i, rfl⟩

theorem finish_of_no_instance {Inst E : Type}
    (server : DescribeInstancesInput → List (DescribeInstancesOutput Inst))
    (hzero : ∀ input, flattenPages (server input) = [])
    (notFound : String) (input : DescribeInstancesInput) :
    (finish notFound
        (getFirstInstance (sdkSession (E := E) fun q => (server q).map .ok) input)).outcome
      = .ret none (some (.errorf notFound)) := by
  rw [getFirstInstance_pagesSession, hzero input]
  rfl

theorem contains_append (pre t : String) : Contains (pre ++ t) t := by
  simp only [Contains, String.data_append]
  exact (List.suffix_append _ _).isInfix

/-- What `GetInstance` does on a supported target type: it ends in the shared
tail on one list query, except for a `tags` target with a segment that has no
colon, where it panics before any query. -/
theorem GetInstance_supported {Inst E : Type} (sess : Session Inst E)
    (targetType target : String) (hsup : targetType ∈ supportedTypes) (ht : target ≠ "") :
    (∃ pre input, GetInstance sess targetType target
        = finish (pre ++ target) (getFirstInstance sess input)
      ∧ (targetType = "tags" → WellFormedTags target)) ∨
    (targetType = "tags" ∧ ¬ WellFormedTags target ∧
      GetInstance sess targetType target = ⟨[], .panic ⟨1, 1⟩⟩) := by
  simp only [supportedTypes, List.mem_cons, List.mem_singleton, List.not_mem_nil,
    or_false] at hsup
  rcases hsup with rfl | rfl | rfl | rfl
  · exact Or.inl ⟨_, _, by rw [GetInstance, if_neg ht, if_pos rfl],
      fun h => absurd h (by decide)⟩
  · exact Or.inl ⟨_, _, by
      rw [GetInstance, if_neg ht, if_neg (by decide), if_pos rfl],
      fun h => absurd h (by decide)⟩
  · exact Or.inl ⟨_, _, by
      rw [GetInstance, if_neg ht, if_neg (by decide), if_neg (by decide), if_pos rfl],
      fun h => absurd h (by decide)⟩
  · by_cases hwf : WellFormedTags target
    · obtain ⟨fs, hfs⟩ := tagLoop_ok_of_colons (stringsSplit target ',')
        ([] ++ [runningFilter]) hwf
      refine Or.inl ⟨"no instance with name tag: ", ⟨fs⟩, ?_, fun _ => hwf⟩
      rw [GetInstance, if_neg ht, if_neg (by decide), if_neg (by decide),
        if_neg (by decide), if_pos rfl]
      simp only [hfs]
    · refine Or.inr ⟨rfl, hwf, ?_⟩
      have hbad : ∃ seg ∈ stringsSplit target ',', ':' ∉ seg.data := by
        simpa [WellFormedTags] using hwf
      have hp := tagLoop_panics_of_no_colon (stringsSplit target ',')
        ([] ++ [runningFilter]) hbad
      rw [GetInstance, if_neg ht, if_neg (by decide), if_neg (by decide),
        if_neg (by decide), if_pos rfl]
      simp only [hp]

theorem GetInstance_unsupported {Inst E : Type} (sess : Session Inst E)
    (targetType target : String) (hsup : targetType ∉ supportedTypes) (ht : target ≠ "") :
    GetInstance sess targetType target
      = ⟨[], .ret none (some (.errorf ("Unsupported target type: " ++ target)))⟩ := by
  simp only [supportedTypes, List.mem_cons, List.mem_singleton, List.not_mem_nil,
    or_false, not_or] at hsup
  rw [GetInstance, if_neg ht, if_neg hsup.1, if_neg hsup.2.1, if_neg hsup.2.2.1,
    if_neg hsup.2.2.2]

/-! ## The claims -/

/-- C1: for every target type and every session, `GetInstance` on the empty
target logs the error and returns no instance with the error
`Specify the target`; no list query is issued. -/
theorem GetInstance_empty_target {Inst E : Type} (sess : Session Inst E)
    (targetType : String) :
    GetInstance sess targetType ""
        = ⟨[.logError [("target", "")] "Specify the target"],
            .ret none (some (.errorf "Specify the target"))⟩
      ∧ queries (GetInstance sess targetType "").effects = [] := by
  have h : GetInstance sess targetType ""
      = ⟨[.logError [("target", "")] "Specify the target"],
          .ret none (some (.errorf "Specify the target"))⟩ := by
    rw [GetInstance, if_pos rfl]
  exact ⟨h, by rw [h]; rfl⟩

/-- C2: for a non-empty target `t`, whatever the session answers, the one list
query of `GetInstance` carries exactly `instance-id=[t]` for `instance-id`,
`private-dns-name=[t], instance-state-name=[running]` for `private-dns`, and
`tag:Name=[t], instance-state-name=[running]` for `name-tag`. -/
theorem GetInstance_simple_filters {Inst E : Type} (sess : Session Inst E) (t : String)
    (ht : t ≠ "") :
    queries (GetInstance sess "instance-id" t).effects
        = [⟨[⟨"instance-id", [t]⟩]⟩]
      ∧ queries (GetInstance sess "private-dns" t).effects
        = [⟨[⟨"private-dns-name", [t]⟩, ⟨"instance-state-name", ["running"]⟩]⟩]
      ∧ queries (GetInstance sess "name-tag" t).effects
        = [⟨[⟨"tag:Name", [t]⟩, ⟨"instance-state-name", ["running"]⟩]⟩] := by
  refine ⟨?_, ?_, ?_⟩
  · rw [GetInstance, if_neg ht, if_pos rfl]
    exact queries_finish _ _ _
  · rw [GetInstance, if_neg ht, if_neg (by decide), if_pos rfl]
    exact queries_finish _ _ _
  · rw [GetInstance, if_neg ht, if_neg (by decide), if_neg (by decide), if_pos rfl]
    exact queries_finish _ _ _

/-- The three filter lists at the target `i-0123456789abcdef0`, on a service
that holds one instance. -/
theorem GetInstance_simple_filters_witness :
    ("i-0123456789abcdef0" : String) ≠ "" ∧
    (queries (GetInstance (pagesSession [⟨[⟨["i-0123456789abcdef0"]⟩]⟩] : Session String String)
          "instance-id" "i-0123456789abcdef0").effects
        = [⟨[⟨"instance-id", ["i-0123456789abcdef0"]⟩]⟩]
      ∧ queries (GetInstance (pagesSession [⟨[⟨["i-0123456789abcdef0"]⟩]⟩] : Session String String)
          "private-dns" "i-0123456789abcdef0").effects
        = [⟨[⟨"private-dns-name", ["i-0123456789abcdef0"]⟩,
              ⟨"instance-state-name", ["running"]⟩]⟩]
      ∧ queries (GetInstance (pagesSession [⟨[⟨["i-0123456789abcdef0"]⟩]⟩] : Session String String)
          "name-tag" "i-0123456789abcdef0").effects
        = [⟨[⟨"tag:Name", ["i-0123456789abcdef0"]⟩,
              ⟨"instance-state-name", ["running"]⟩]⟩]) :=
  ⟨by decide, GetInstance_simple_filters _ "i-0123456789abcdef0" (by decide)⟩

/-- C3: for target type `tags` and a target `k1:v1,...,kn:vn` with `n ≥ 1`
where no key or value has a comma or a colon, the one list query carries
exactly `n+1` filters: `instance-state-name=[running]` and then, in input
order, `tag:ki=[vi]`. -/
theorem GetInstance_tags_filters {Inst E : Type} (sess : Session Inst E)
    (kvs : List (String × String)) (hne : kvs ≠ [])
    (hk : ∀ kv ∈ kvs, ':' ∉ kv.1.data ∧ ',' ∉ kv.1.data ∧
      ':' ∉ kv.2.data ∧ ',' ∉ kv.2.data) :
    queries (GetInstance sess "tags" (renderTags kvs)).effects
        = [⟨⟨"instance-state-name", ["running"]⟩
            :: kvs.map fun kv => ⟨"tag:" ++ kv.1, [kv.2]⟩⟩]
      ∧ (⟨"instance-state-name", ["running"]⟩
            :: kvs.map fun kv => (⟨"tag:" ++ kv.1, [kv.2]⟩ : Filter)).length
          = kvs.length + 1 := by
  refine ⟨?_, by simp⟩
  rw [GetInstance_tags sess kvs hne (fun kv hm => ⟨(hk kv hm).1, (hk kv hm).2.1, (hk kv hm).2.2.2⟩),
    queries_finish]
  have hmap : kvs.map tagFilter = kvs.map fun kv => (⟨"tag:" ++ kv.1, [kv.2]⟩ : Filter) := by
    apply List.map_congr_left
    intro kv hm
    simp [tagFilter, beforeColon_of_no_colon kv.2 (hk kv hm).2.2.1]
  rw [hmap]
  rfl

/-- The target `env:prod,team:infra` yields `tag:env=[prod]` and
`tag:team=[infra]` after the state filter. -/
theorem GetInstance_tags_filters_witness :
    ([("env", "prod"), ("team", "infra")] : List (String × String)) ≠ [] ∧
    (∀ kv ∈ ([("env", "prod"), ("team", "infra")] : List (String × String)),
      ':' ∉ kv.1.data ∧ ',' ∉ kv.1.data ∧ ':' ∉ kv.2.data ∧ ',' ∉ kv.2.data) ∧
    queries (GetInstance (pagesSession [] : Session String String)
        "tags" "env:prod,team:infra").effects
      = [⟨[⟨"instance-state-name", ["running"]⟩, ⟨"tag:env", ["prod"]⟩,
            ⟨"tag:team", ["infra"]⟩]⟩] :=
  ⟨by decide, by decide,
    (GetInstance_tags_filters (pagesSession [] : Session String String)
      [("env", "prod"), ("team", "infra")] (by decide) (by decide)).1⟩

/-- C4 (the code at the failing inputs): for target type `tags`, the targets
`badsegment` and `env:prod,badsegment` make `GetInstance` panic with
`index out of range [1] with length 1`, before any list query; no error value
is returned. -/
theorem GetInstance_tags_badsegment_panics {Inst E : Type} (sess : Session Inst E) :
    GetInstance sess "tags" "badsegment" = ⟨[], .panic ⟨1, 1⟩⟩
      ∧ GetInstance sess "tags" "env:prod,badsegment" = ⟨[], .panic ⟨1, 1⟩⟩ :=
  ⟨rfl, rfl⟩

/-- C5: when the service answers with the pages `pages` and no request
fails, `getFirstInstance` returns the first instance of the pages flattened in
page, reservation, instance order (`nil` when there is none) and no error; the
page requests sent are those up to and including the first page that holds
an instance (all of them when none does), so a match on page 1 costs one
request;
and the page callback answers `continue` exactly when the page has no instance
and is not the last one. -/
theorem getFirstInstance_first_match {Inst E : Type}
    (pages : List (DescribeInstancesOutput Inst)) (input : DescribeInstancesInput) :
    getFirstInstance (pagesSession (E := E) pages) input
        = (.describeInstancesPages input (min (pages.findIdx hasInstance + 1) pages.length),
            (flattenPages pages).head?, none)
      ∧ (∀ (page : DescribeInstancesOutput Inst) (rest : List (DescribeInstancesOutput Inst)),
          (getFirstInstance (pagesSession (E := E) (page :: rest)) input).1
            = .describeInstancesPages input
                (if hasInstance page then 1
                 else min (rest.findIdx hasInstance + 2) (rest.length + 1)))
      ∧ (∀ (page : DescribeInstancesOutput Inst) lastPage target,
          (pageCallback page lastPage target).2 = (!hasInstance page && !lastPage)) := by
  refine ⟨getFirstInstance_pagesSession (fun _ => pages) input, ?_, ?_⟩
  · intro page rest
    have h := getFirstInstance_pagesSession (E := E) (fun _ => page :: rest) input
    rw [pagesSession, h]
    cases hp : hasInstance page <;> simp [List.findIdx_cons, hp]
  · intro page lastPage target
    rw [hasInstance_eq, pageCallback]
    cases scanReservations page.Reservations <;> simp

/-- C6: for every non-empty target `t`, when every page request succeeds and
the pages hold no instance, `GetInstance` returns a `nil` instance and the
not-found error of the target type, whose message ends in `t`:
`no instance with an instance id: t` for `instance-id`,
`no instance with a private dns name: t` for `private-dns`,
`no instance with name tag: t` for `name-tag` and, when every segment of `t`
has a colon, for `tags`. -/
theorem GetInstance_not_found {Inst E : Type}
    (server : DescribeInstancesInput → List (DescribeInstancesOutput Inst))
    (t : String) (ht : t ≠ "")
    (hzero : ∀ input, flattenPages (server input) = []) :
    ((GetInstance (sdkSession (E := E) fun q => (server q).map .ok) "instance-id" t).outcome
          = .ret none (some (.errorf ("no instance with an instance id: " ++ t)))
        ∧ Contains ("no instance with an instance id: " ++ t) t)
      ∧ ((GetInstance (sdkSession (E := E) fun q => (server q).map .ok) "private-dns" t).outcome
          = .ret none (some (.errorf ("no instance with a private dns name: " ++ t)))
        ∧ Contains ("no instance with a private dns name: " ++ t) t)
      ∧ ((GetInstance (sdkSession (E := E) fun q => (server q).map .ok) "name-tag" t).outcome
          = .ret none (some (.errorf ("no instance with name tag: " ++ t)))
        ∧ Contains ("no instance with name tag: " ++ t) t)
      ∧ (WellFormedTags t →
          (GetInstance (sdkSession (E := E) fun q => (server q).map .ok) "tags" t).outcome
            = .ret none (some (.errorf ("no instance with name tag: " ++ t)))
          ∧ Contains ("no instance with name tag: " ++ t) t) := by
  refine ⟨⟨?_, contains_append _ t⟩, ⟨?_, contains_append _ t⟩,
    ⟨?_, contains_append _ t⟩, fun hwf => ⟨?_, contains_append _ t⟩⟩
  · rw [GetInstance, if_neg ht, if_pos rfl]
    exact finish_of_no_instance server hzero _ _
  · rw [GetInstance, if_neg ht, if_neg (by decide), if_pos rfl]
    exact finish_of_no_instance server hzero _ _
  · rw [GetInstance, if_neg ht, if_neg (by decide), if_neg (by decide), if_pos rfl]
    exact finish_of_no_instance server hzero _ _
  · obtain ⟨fs, hfs⟩ := tagLoop_ok_of_colons (stringsSplit t ',') ([] ++ [runningFilter]) hwf
    rw [GetInstance, if_neg ht, if_neg (by decide), if_neg (by decide),
      if_neg (by decide), if_pos rfl]
    simp only [hfs]
    exact finish_of_no_instance server hzero _ _

/-- The target `env:prod,team:infra` on two pages without instances: the
`tags` case answers `no instance with name tag: env:prod,team:infra`. -/
theorem GetInstance_not_found_witness :
    ("env:prod,team:infra" : String) ≠ "" ∧
    (∀ input : DescribeInstancesInput,
      flattenPages ((fun _ => [⟨[]⟩, ⟨[⟨[]⟩, ⟨[]⟩]⟩]) input
        : List (DescribeInstancesOutput String)) = []) ∧
    WellFormedTags "env:prod,team:infra" ∧
    (GetInstance (sdkSession (E := String) fun q =>
        ((fun _ => [⟨[]⟩, ⟨[⟨[]⟩, ⟨[]⟩]⟩]) q : List (DescribeInstancesOutput String)).map .ok)
        "tags" "env:prod,team:infra").outcome
      = .ret none (some (.errorf "no instance with name tag: env:prod,team:infra")) ∧
    (GetInstance (sdkSession (E := String) fun q =>
        ((fun _ => [⟨[]⟩, ⟨[⟨[]⟩, ⟨[]⟩]⟩]) q : List (DescribeInstancesOutput String)).map .ok)
        "instance-id" "env:prod,team:infra").outcome
      = .ret none (some (.errorf "no instance with an instance id: env:prod,team:infra")) :=
  ⟨by decide, fun _ => rfl, by decide,
    ((GetInstance_not_found (E := String) (fun _ => [⟨[]⟩, ⟨[⟨[]⟩, ⟨[]⟩]⟩])
      "env:prod,team:infra" (by decide) (fun _ => rfl)).2.2.2 (by decide)).1,
    (GetInstance_not_found (E := String) (fun _ => [⟨[]⟩, ⟨[⟨[]⟩, ⟨[]⟩]⟩])
      "env:prod,team:infra" (by decide) (fun _ => rfl)).1.1⟩

/-- C7: for every target type other than `instance-id`, `private-dns`,
`name-tag` and `tags`, and every non-empty target, `GetInstance` returns a
`nil` instance and the `Unsupported target type` error, with no effect at
all: no list query is issued. -/
theorem GetInstance_unsupported_type {Inst E : Type} (sess : Session Inst E)
    (targetType t : String) (hsup : targetType ∉ supportedTypes) (ht : t ≠ "") :
    GetInstance sess targetType t
        = ⟨[], .ret none (some (.errorf ("Unsupported target type: " ++ t)))⟩
      ∧ queries (GetInstance sess targetType t).effects = [] := by
  have h := GetInstance_unsupported sess targetType t hsup ht
  exact ⟨h, by rw [h]; rfl⟩

/-- The case variant `Instance-Id` is not a supported target type. -/
theorem GetInstance_unsupported_type_witness :
    "Instance-Id" ∉ supportedTypes ∧ ("i-0123456789abcdef0" : String) ≠ "" ∧
    (GetInstance (pagesSession [⟨[⟨["i-0123456789abcdef0"]⟩]⟩] : Session String String)
        "Instance-Id" "i-0123456789abcdef0"
        = ⟨[], .ret none
            (some (.errorf ("Unsupported target type: " ++ "i-0123456789abcdef0")))⟩
      ∧ queries (GetInstance
          (pagesSession [⟨[⟨["i-0123456789abcdef0"]⟩]⟩] : Session String String)
          "Instance-Id" "i-0123456789abcdef0").effects = []) :=
  ⟨by decide, by decide,
    GetInstance_unsupported_type _ "Instance-Id" "i-0123456789abcdef0" (by decide) (by decide)⟩

/-- C8 (the code at the failing input): for the unrecognised target type
`public-dns` and the target `web-1`, the error message of `GetInstance` is
`Unsupported target type: web-1`: it names the target, and does not contain
the target type. -/
theorem GetInstance_unsupported_message_names_target {Inst E : Type}
    (sess : Session Inst E) :
    GetInstance sess "public-dns" "web-1"
        = ⟨[], .ret none (some (.errorf "Unsupported target type: web-1"))⟩
      ∧ ¬ Contains "Unsupported target type: web-1" "public-dns"
      ∧ Contains "Unsupported target type: web-1" "web-1" :=
  ⟨rfl, by decide, by decide⟩

/-- C9: for every session, target type and target: if the target type is
supported, the target non-empty (well formed for `tags`) and the paginated
list call returns the error `e`, then `GetInstance` returns `nil` and exactly
`e`, whatever the page callback stored before; and every call ends with
an instance and no error, or with no instance and an error, the one
exception being the panic on a `tags` target with a segment without a
colon. -/
theorem GetInstance_error_exclusive {Inst E : Type} (sess : Session Inst E)
    (targetType t : String) :
    (∀ e, targetType ∈ supportedTypes → t ≠ "" →
        (targetType = "tags" → WellFormedTags t) →
        (∀ input, (sess.DescribeInstancesPages input pageCallback none).err = some e) →
        (GetInstance sess targetType t).outcome = .ret none (some e))
      ∧ ((∃ i, (GetInstance sess targetType t).outcome = .ret (some i) none)
        ∨ (∃ e, (GetInstance sess targetType t).outcome = .ret none (some e))
        ∨ (targetType = "tags" ∧ t ≠ "" ∧ ¬ WellFormedTags t ∧
            (GetInstance sess targetType t).outcome = .panic ⟨1, 1⟩)) := by
  constructor
  · intro e hsup ht hwf herr
    rcases GetInstance_supported sess targetType t hsup ht with
      ⟨pre, input, heq, _⟩ | ⟨htags, hbad, _⟩
    · rw [heq]
      exact finish_of_err sess _ input e (herr input)
    · exact absurd (hwf htags) hbad
  · by_cases ht : t = ""
    · subst ht
      exact Or.inr (Or.inl ⟨_, by rw [(GetInstance_empty_target sess targetType).1]⟩)
    · by_cases hsup : targetType ∈ supportedTypes
      · rcases GetInstance_supported sess targetType t hsup ht with
          ⟨pre, input, heq, _⟩ | ⟨htags, hbad, hp⟩
        · rw [heq]
          rcases finish_cases sess (pre ++ t) input with h | h
          · exact Or.inl h
          · exact Or.inr (Or.inl h)
        · exact Or.inr (Or.inr ⟨htags, ht, hbad, by rw [hp]⟩)
      · exact Or.inr (Or.inl ⟨_, by rw [GetInstance_unsupported sess targetType t hsup ht]⟩)

/-- A paginator that hands a page holding `i-1` to the callback and then
fails: `GetInstance` returns `nil` and the error itself. -/
theorem GetInstance_error_exclusive_witness :
    "private-dns" ∈ supportedTypes ∧ ("ip-10-0-0-1.ec2.internal" : String) ≠ "" ∧
    (∀ input,
      Session.DescribeInstancesPages
          (failAfterPage "i-1" (.upstream "RequestLimitExceeded") : Session String String)
          input pageCallback none
        = ⟨some "i-1", some (.upstream "RequestLimitExceeded"), 2⟩) ∧
    (GetInstance (failAfterPage "i-1" (.upstream "RequestLimitExceeded") : Session String String)
        "private-dns" "ip-10-0-0-1.ec2.internal").outcome
      = .ret none (some (.upstream "RequestLimitExceeded")) :=
  ⟨by decide, by decide, fun _ => rfl,
    (GetInstance_error_exclusive
      (failAfterPage "i-1" (.upstream "RequestLimitExceeded") : Session String String)
      "private-dns" "ip-10-0-0-1.ec2.internal").1 _ (by decide) (by decide)
      (fun h => absurd h (by decide)) (fun _ => rfl)⟩

/-- C10 (the code at the failing input): the segment `url:http://x` has a key
without colon or comma and a value without comma; `strings.Split` cuts it at
every colon and only `tags[0]` and `tags[1]` are read, so the filter built is
`tag:url=[http]`, not `tag:url=[http://x]`. The `name-tag` case keeps the same
value whole. -/
theorem GetInstance_tags_colon_value_truncated {Inst E : Type} (sess : Session Inst E) :
    queries (GetInstance sess "tags" ("url" ++ ":" ++ "http://x")).effects
        = [⟨[⟨"instance-state-name", ["running"]⟩, ⟨"tag:" ++ "url", ["http"]⟩]⟩]
      ∧ queries (GetInstance sess "tags" ("url" ++ ":" ++ "http://x")).effects
        ≠ [⟨[⟨"instance-state-name", ["running"]⟩, ⟨"tag:" ++ "url", ["http://x"]⟩]⟩]
      ∧ stringsSplit ("url" ++ ":" ++ "http://x") ':' = ["url", "http", "//x"]
      ∧ queries (GetInstance sess "name-tag" "http://x").effects
        = [⟨[⟨"tag:Name", ["http://x"]⟩, ⟨"instance-state-name", ["running"]⟩]⟩] := by
  have h : queries (GetInstance sess "tags" ("url" ++ ":" ++ "http://x")).effects
      = [⟨[⟨"instance-state-name", ["running"]⟩, ⟨"tag:" ++ "url", ["http"]⟩]⟩] := by
    have heq : ("url" ++ ":" ++ "http://x" : String) = renderTags [("url", "http://x")] := rfl
    rw [heq, GetInstance_tags sess [("url", "http://x")] (by decide) (by decide),
      queries_finish]
    rfl
  refine ⟨h, ?_, by decide, ?_⟩
  · rw [h]
    decide
  · rw [GetInstance, if_neg (by decide), if_neg (by decide), if_neg (by decide), if_pos rfl]
    exact queries_finish _ _ _

end Sigil
